import Mathlib

/-!
# Verification of the soy-rs template compiler and renderer

A shallow embedding, in Lean 4, of the soy-rs crate: the typed AST built by
`src/parser.rs` / `src/parser/ast.rs`, the binary-operator precedence
resolution (`build_binary_operation`), reference-chain parsing
(`parse_reference`), and the registry / rendering engine in `src/tofu.rs`,
together with theorems checking the natural-language specification against
these definitions.

Conventions:
* Rust `i64`/`u8` values are modelled as `Int`/`Nat` (no arithmetic close to
  overflow occurs in the modelled code paths).
* Rust `f64` literal payloads are modelled opaquely by their 64-bit pattern
  (`UInt64`); no claim in scope computes with floats.
* Rust `HashMap<String, V>` is modelled as the lookup function
  `String → Option V`; `HashMap::extend`/`insert` is pointwise update
  (insertion replaces the binding of an existing key, all other keys keep
  their binding), and `HashMap::get` is application.
* output sinks (`W: Write`) are modelled as byte lists (`List UInt8`);
  writes to a `Vec<u8>` sink are infallible, matching the code paths the
  claims exercise.
-/

/-! ## Expression AST (src/parser/ast.rs) -/

/-- `BinaryOperator` from src/parser/ast.rs. -/
inductive BinaryOperator where
  | Plus
  | Minus
  | Times
  | Divide
  | Modulo
  | Less
  | LessEquals
  | Greater
  | GreaterEquals
  | Equals
  | NotEquals
  | And
  | Or
  | Elvis
deriving DecidableEq, Repr

/-- `UnaryOperator` from src/parser/ast.rs. -/
inductive UnaryOperator where
  | Minus
  | Not
deriving DecidableEq, Repr

/-- `Referent` from src/parser/ast.rs. -/
inductive Referent where
  | Variable (name : String)
  | Injected (name : String)
deriving DecidableEq, Repr

/-- `ReferenceKey` from src/parser/ast.rs. -/
inductive ReferenceKey where
  | Number (index : Nat)
  | Name (field : String)
deriving DecidableEq, Repr

mutual

/-- `Expression` from src/parser/ast.rs.  The `Float` payload is the i64 bit
pattern of the Rust `f64` (opaque here: no claim computes with floats); the
`Map` payload models the `HashMap<String, Expression>` as its entry list. -/
inductive Expression where
  | Null
  | Boolean (value : Bool)
  | Float (bits : UInt64)
  | Integer (value : Int)
  | String (value : String)
  | List (items : List Expression)
  | Map (entries : List (String × Expression))
  | Function (name : String) (parameters : List Expression)
  | DataReference (referent : Referent) (references : List Reference)
  | GlobalReference (name : String)
  | BinaryOperation (lhs : Expression) (op : BinaryOperator) (rhs : Expression)
  | UnaryOperation (op : UnaryOperator) (rhs : Expression)
  | TernaryOperation (condition : Expression) (if_true : Expression) (if_false : Expression)

/-- `Reference` (one step of a data-reference chain) from src/parser/ast.rs. -/
inductive Reference where
  | Dotted (key : ReferenceKey)
  | QuestionDotted (key : ReferenceKey)
  | Bracketed (e : Expression)
  | QuestionBracketed (e : Expression)

end

/-! ## Binary-operator precedence resolution (src/parser.rs, build_binary_operation) -/

/-- The `ORDER_OF_OPS` table of `build_binary_operation` (src/parser.rs:298):
the list of `(operator, tier)` pairs collected into a `HashMap`. -/
def ORDER_OF_OPS : List (BinaryOperator × Nat) :=
  [(BinaryOperator.Times, 0),
   (BinaryOperator.Divide, 0),
   (BinaryOperator.Modulo, 0),
   (BinaryOperator.Plus, 1),
   (BinaryOperator.Minus, 1),
   (BinaryOperator.Less, 2),
   (BinaryOperator.Greater, 2),
   (BinaryOperator.LessEquals, 2),
   (BinaryOperator.GreaterEquals, 2),
   (BinaryOperator.Equals, 3),
   (BinaryOperator.NotEquals, 3),
   (BinaryOperator.And, 4),
   (BinaryOperator.Or, 5),
   (BinaryOperator.Elvis, 6)]

/-- The key used by the `min_by_key` call in `build_binary_operation`:
`ORDER_OF_OPS.get(&op).unwrap_or(&7)` (src/parser.rs:323). -/
def opTier (op : BinaryOperator) : Nat :=
  ((ORDER_OF_OPS.find? (fun p => p.1 == op)).map (fun p => p.2)).getD 7

/-- Index of the first element with a minimal key: a list element is returned
as soon as its key is `≤` every later key, which is exactly the element
Rust's `Iterator::min_by_key` returns (the first among equal minima). -/
def firstMinIdx (keys : List Nat) : Nat :=
  match keys with
  | [] => 0
  | k :: rest => if rest.all (fun x => k ≤ x) then 0 else firstMinIdx rest + 1

/-- The index selected by the `min_by_key` call of `build_binary_operation`:
the leftmost operator/operand pair whose operator has minimal tier. -/
def minTierIndex (ops : List (BinaryOperator × Expression)) : Nat :=
  firstMinIdx (ops.map (fun p => opTier p.1))

/-- The loop of `build_binary_operation` (src/parser.rs:319-343).  Each
iteration removes exactly one pair (`Vec::remove`), so the `while
!ops.is_empty()` loop runs exactly `ops.len()` times; the fuel argument is
instantiated with `ops.length`, making the recursion structural.  The inner
`none` case of the left-neighbour lookup is unreachable (the selected index
is in range and positive there, see `build_binary_operation`). -/
def buildBinOpLoop : Nat → Expression → List (BinaryOperator × Expression) → Expression
  | 0, lhs, _ => lhs
  | fuel + 1, lhs, ops =>
    match ops[minTierIndex ops]? with
    | none => lhs
    | some (op, rhs) =>
      let i := minTierIndex ops
      let ops' := ops.eraseIdx i
      if i = 0 then
        buildBinOpLoop fuel (Expression.BinaryOperation lhs op rhs) ops'
      else
        match ops'[i - 1]? with
        | none => lhs
        | some (left_op, left_expr) =>
          buildBinOpLoop fuel lhs
            (ops'.set (i - 1) (left_op, Expression.BinaryOperation left_expr op rhs))

/-- `build_binary_operation` (src/parser.rs:294-345): folds the flat
`lhs (op rhs)*` sequence produced by the grammar's `operation` rule into a
single `Expression`, repeatedly contracting the leftmost minimal-tier
operator with its immediate left operand. -/
def build_binary_operation (lhs : Expression)
    (ops : List (BinaryOperator × Expression)) : Expression :=
  buildBinOpLoop ops.length lhs ops

/-! ## Reference-chain parsing (src/parser.rs, parse_reference) -/

/-- One child pair of a concrete `reference` parse-tree node, after its own
sub-trees have been parsed (shallow embedding of the pest `Pair`s that the
loop of `parse_reference` (src/parser.rs:240-258) matches on).  The grammar
produces the children in source order. -/
inductive RefChild where
  | «variable» (name : String)
  | injectedData (name : String)
  | bracketedReference (e : Expression)
  | dottedReference (key : ReferenceKey)
  | questionBracketedReference (e : Expression)
  | questionDottedReference (key : ReferenceKey)

/-- One iteration of the loop of `parse_reference`: the state is the
`referent` option and the `references` vector; reference steps are pushed at
the back (`Vec::push`). -/
def parseReferenceStep (st : Option Referent × List Reference) (child : RefChild) :
    Option Referent × List Reference :=
  match child with
  | RefChild.«variable» name => (some (Referent.Variable name), st.2)
  | RefChild.injectedData name => (some (Referent.Injected name), st.2)
  | RefChild.bracketedReference e => (st.1, st.2 ++ [Reference.Bracketed e])
  | RefChild.dottedReference key => (st.1, st.2 ++ [Reference.Dotted key])
  | RefChild.questionBracketedReference e =>
      (st.1, st.2 ++ [Reference.QuestionBracketed e])
  | RefChild.questionDottedReference key =>
      (st.1, st.2 ++ [Reference.QuestionDotted key])

/-- `parse_reference` (src/parser.rs:234-263): folds the child pairs into a
`DataReference`.  The final `referent.expect(..)` panic on a reference with
no referent child is modelled as `none` (the grammar always supplies one). -/
def parse_reference (children : List RefChild) : Option Expression :=
  let st := children.foldl parseReferenceStep (none, [])
  st.1.map (fun referent => Expression.DataReference referent st.2)

/-- The referent denoted by a referent child pair (`variable` or
`injected_data`), if the child is one. -/
def referentOfChild : RefChild → Option Referent
  | RefChild.«variable» name => some (Referent.Variable name)
  | RefChild.injectedData name => some (Referent.Injected name)
  | _ => none

/-- The chain step denoted by a step child pair, if the child is one;
the kind mapping of the four step rules in `parse_reference`. -/
def stepOfChild : RefChild → Option Reference
  | RefChild.bracketedReference e => some (Reference.Bracketed e)
  | RefChild.dottedReference key => some (Reference.Dotted key)
  | RefChild.questionBracketedReference e => some (Reference.QuestionBracketed e)
  | RefChild.questionDottedReference key => some (Reference.QuestionDotted key)
  | _ => none

/-- Maps every child to its chain step, failing if some child is not a step
child (order preserving). -/
def stepsOfChildren : List RefChild → Option (List Reference)
  | [] => some []
  | c :: cs =>
    match stepOfChild c, stepsOfChildren cs with
    | some r, some rs => some (r :: rs)
    | _, _ => none

/-! ## Renderer-side AST (crate::ast)

`src/lib.rs` declares `mod ast;`, but `src/ast.rs` itself is not present in
the repository snapshot; its shape is pinned by the patterns `src/tofu.rs`
matches on (`RawText { value, newline }`, `Statement { command, newline }`,
`Special`, `Command::Literal | Msg | Print`) and by spec §3. -/

/-- `SoydocParam` (one `@param` / `@param?` declaration), from
src/parser.rs `parse_soydoc_param` and spec §3. -/
structure SoydocParam where
  name : String
  required : Bool
deriving DecidableEq, Repr

/-- `PrintDirective` from src/parser/ast.rs. -/
structure PrintDirective where
  name : String
  arguments : List Expression

mutual

/-- Modelled from the spec: `TemplateNode` of the missing crate-level
`src/ast.rs`, as matched on by `Tofu::render_template` (src/tofu.rs:64-81)
and described in spec §3 — `RawText{value, newline}`,
`Statement{command, newline}`, `Special(literal)`. -/
inductive TemplateNode where
  | RawText (value : String) (newline : Bool)
  | Statement (command : Command) (newline : Bool)
  | Special (literal : String)

/-- Modelled from the spec: `Command` of the missing crate-level
`src/ast.rs`, as matched on by `Tofu::render_template` (src/tofu.rs:73-77):
`Literal`, `Msg`, `Print` (spec §3 lists `Msg` and `Print`). -/
inductive Command where
  | Literal (value : String)
  | Msg (body : MsgBody)
  | Print (expression : Expression) (directives : List PrintDirective)

/-- `MsgBody` from src/parser/ast.rs / spec §3. -/
inductive MsgBody where
  | Plural (expression : Expression) (cases : List PluralCase)
      (defaultBlock : List TemplateNode)
  | Block (block : List TemplateNode)

/-- `PluralCase` from src/parser/ast.rs / spec §3. -/
inductive PluralCase where
  | mk (expression : Expression) (body : List TemplateNode)

end

/-- `TemplateBlock` (src/parser/ast.rs): an ordered node sequence. -/
abbrev TemplateBlock := List TemplateNode

/-- `Template` as consumed by src/tofu.rs (`t.name`, `template.body`) and
produced by src/parser.rs `parse_template`. -/
structure Template where
  name : String
  soydoc_params : List SoydocParam
  body : TemplateBlock

/-- `Namespace` from src/parser.rs `parse_namespace`; the attribute map is
modelled by its entry list. -/
structure Namespace where
  name : String
  attributes : List (String × String)

/-- `Alias` from src/parser.rs `parse_alias`. -/
structure Alias where
  from_name : String
  to_name : Option String

/-- `SoyFile` from src/parser.rs `parse_soyfile`. -/
structure SoyFile where
  delpackage : Option String
  «namespace» : Namespace
  aliases : List Alias
  templates : List Template

/-! ## UTF-8 bytes

`str::as_bytes` on a Rust `String` is the UTF-8 encoding of its characters;
`String::from_utf8` is the (validating) decoding.  Both are modelled here
over `List UInt8`. -/

/-- UTF-8 encoding of one unicode scalar value. -/
def utf8EncodeCh (c : Char) : List UInt8 :=
  let n := c.toNat
  if n < 0x80 then
    [UInt8.ofNat n]
  else if n < 0x800 then
    [UInt8.ofNat (0xC0 + n / 64), UInt8.ofNat (0x80 + n % 64)]
  else if n < 0x10000 then
    [UInt8.ofNat (0xE0 + n / 4096), UInt8.ofNat (0x80 + n / 64 % 64),
     UInt8.ofNat (0x80 + n % 64)]
  else
    [UInt8.ofNat (0xF0 + n / 0x40000), UInt8.ofNat (0x80 + n / 4096 % 64),
     UInt8.ofNat (0x80 + n / 64 % 64), UInt8.ofNat (0x80 + n % 64)]

/-- UTF-8 encoding of a character list. -/
def utf8EncodeChars : List Char → List UInt8
  | [] => []
  | c :: cs => utf8EncodeCh c ++ utf8EncodeChars cs

/-- `str::as_bytes` / `String::into_bytes`: the UTF-8 bytes of a string. -/
def strBytes (s : String) : List UInt8 :=
  utf8EncodeChars s.data

/-- UTF-8 validation/decoding of a byte list into characters, with exactly
the shape of validity `String::from_utf8` accepts: no lead bytes `C0`/`C1`
or `F5..FF`, continuation bytes in `80..BF`, no overlong forms, no
surrogates, scalar values at most `10FFFF`. -/
def utf8DecodeChars : List UInt8 → Option (List Char)
  | [] => some []
  | b :: rest =>
    let n := b.toNat
    if n < 0x80 then
      (utf8DecodeChars rest).map (fun cs => Char.ofNat n :: cs)
    else if n < 0xC2 then
      none
    else if n < 0xE0 then
      match rest with
      | b1 :: rest' =>
        let n1 := b1.toNat
        if 0x80 ≤ n1 ∧ n1 < 0xC0 then
          (utf8DecodeChars rest').map
            (fun cs => Char.ofNat ((n - 0xC0) * 64 + (n1 - 0x80)) :: cs)
        else none
      | [] => none
    else if n < 0xF0 then
      match rest with
      | b1 :: b2 :: rest' =>
        let n1 := b1.toNat
        let n2 := b2.toNat
        let cp := (n - 0xE0) * 4096 + (n1 - 0x80) * 64 + (n2 - 0x80)
        if (0x80 ≤ n1 ∧ n1 < 0xC0) ∧ (0x80 ≤ n2 ∧ n2 < 0xC0) ∧
            0x800 ≤ cp ∧ (cp < 0xD800 ∨ 0xDFFF < cp) then
          (utf8DecodeChars rest').map (fun cs => Char.ofNat cp :: cs)
        else none
      | _ => none
    else if n < 0xF5 then
      match rest with
      | b1 :: b2 :: b3 :: rest' =>
        let n1 := b1.toNat
        let n2 := b2.toNat
        let n3 := b3.toNat
        let cp := (n - 0xF0) * 0x40000 + (n1 - 0x80) * 4096 +
          (n2 - 0x80) * 64 + (n3 - 0x80)
        if (0x80 ≤ n1 ∧ n1 < 0xC0) ∧ (0x80 ≤ n2 ∧ n2 < 0xC0) ∧
            (0x80 ≤ n3 ∧ n3 < 0xC0) ∧ 0x10000 ≤ cp ∧ cp ≤ 0x10FFFF then
          (utf8DecodeChars rest').map (fun cs => Char.ofNat cp :: cs)
        else none
      | _ => none
    else
      none

/-- `String::from_utf8`: decodes the bytes, or fails on invalid UTF-8. -/
def utf8Decode (bytes : List UInt8) : Option String :=
  (utf8DecodeChars bytes).map (fun cs => String.mk cs)

/-! ## Errors (src/error.rs) -/

/-- `TemplateLocation` from src/error.rs. -/
structure TemplateLocation where
  filename : Option String
  template_name : Option String
  line_number : Nat
  column : Nat
  snippet : Option String
deriving DecidableEq, Repr

/-- `RenderErrorKind` from src/error.rs (exactly three variants; the
`IoError` payload `io::Error` is opaque, the `Utf8Error` payload is the
`FromUtf8Error`, modelled by the offending byte vector it carries). -/
inductive RenderErrorKind where
  | IoError
  | Utf8Error (bytes : List UInt8)
  | TemplateNotFound (name : String)
deriving DecidableEq, Repr

/-- `RenderError` from src/error.rs. -/
structure RenderError where
  kind : RenderErrorKind
  location : Option TemplateLocation
deriving DecidableEq, Repr

/-- `CompileErrorKind` from src/error.rs (exactly two variants). -/
inductive CompileErrorKind where
  | Parse
  | UndeclaredParameter (name : String)
deriving DecidableEq, Repr

/-- `CompileError` from src/error.rs; the boxed `cause` is modelled by its
message. -/
structure CompileError where
  kind : CompileErrorKind
  location : Option TemplateLocation
  cause : Option String
deriving DecidableEq, Repr

/-! ## The template registry and renderer (src/tofu.rs) -/

/-- `Tofu` (src/tofu.rs:7-10): the registry.  The
`HashMap<String, Template>` is modelled as its lookup function. -/
structure Tofu where
  templates : String → Option Template

/-- The empty registry `Tofu { templates: HashMap::new() }`. -/
def emptyTofu : Tofu :=
  { templates := fun _ => none }

/-- The fully-qualified key `format!("{}.{}", namespace, t.name)`
(src/tofu.rs:42). -/
def fqName (namespaceName : String) (t : Template) : String :=
  namespaceName ++ "." ++ t.name

/-- `Tofu::add_file` (src/tofu.rs:37-44): `HashMap::extend` over the
file's templates keyed by fully-qualified name.  `extend` inserts the pairs
in iteration order; inserting an existing key replaces its binding. -/
def add_file (tofu : Tofu) (file : SoyFile) : Tofu :=
  { templates :=
      file.templates.foldl
        (fun m t => fun key =>
          if key = fqName file.«namespace».name t then some t else m key)
        tofu.templates }

/-- `Tofu::with_string_template` (src/tofu.rs:13-20), modelled from the
point where `parser::parse` has succeeded with the file `file` (the pest
grammar run itself is out of the embedding; a parse failure is returned as
the `CompileError` before this point).  After the parse, the code only
constructs the empty registry and calls `add_file` — no further validation
of any kind is performed before `Ok` is returned. -/
def with_string_template (file : SoyFile) : Except CompileError Tofu :=
  Except.ok (add_file emptyTofu file)

/-- `Tofu::template` (src/tofu.rs:46-51): registry lookup, returning a
`TemplateNotFound` render error carrying the requested name when absent
(`location: Default::default()`, i.e. `None`). -/
def template (tofu : Tofu) (name : String) : Except RenderError Template :=
  match tofu.templates name with
  | some t => Except.ok t
  | none =>
      Except.error { kind := RenderErrorKind.TemplateNotFound name, location := none }

/-- One iteration of the rendering loop of `Tofu::render_template`
(src/tofu.rs:63-82): the state is the bytes written to the sink so far and
the `add_space_if_text` flag. -/
def renderStep (st : List UInt8 × Bool) (node : TemplateNode) : List UInt8 × Bool :=
  match node with
  | TemplateNode.RawText value newline =>
      let w := if st.2 then st.1 ++ [32] else st.1
      (w ++ strBytes value, newline)
  | TemplateNode.Statement command _ =>
      let w :=
        match command with
        | Command.Literal literal => st.1 ++ strBytes literal
        | Command.Msg _ => st.1
        | Command.Print _ _ => st.1
      (w, false)
  | TemplateNode.Special special => (st.1 ++ strBytes special, st.2)

/-- `Tofu::render_template` (src/tofu.rs:56-84): walks the template body
with `add_space_if_text` initially `false` and returns the bytes written.
(The `Result` value is always `Ok`: the loop body only writes to the sink,
and the modelled sink is an infallible `Vec<u8>`.) -/
def render_template (tpl : Template) : List UInt8 :=
  (tpl.body.foldl renderStep ([], false)).1

/-- `Tofu::render` (src/tofu.rs:22-25) with sink state `w`: looks the
template up first (`self.template(template_name)?`) and only on success
renders into the sink.  Returns the `Result` together with the final sink
contents. -/
def render (tofu : Tofu) (w : List UInt8) (name : String) :
    Except RenderError Unit × List UInt8 :=
  match template tofu name with
  | Except.error e => (Except.error e, w)
  | Except.ok tpl => (Except.ok (), w ++ render_template tpl)

/-- `Tofu::render_to_string` (src/tofu.rs:27-35): renders into a fresh
`Vec<u8>`, propagates a render error with `?`, then decodes with
`String::from_utf8(output)?` (the `From<FromUtf8Error>` impl in
src/error.rs:64-71 wraps the failure as `Utf8Error` with `location: None`);
`shrink_to_fit` does not change the string value. -/
def render_to_string (tofu : Tofu) (name : String) : Except RenderError String :=
  match render tofu [] name with
  | (Except.error e, _) => Except.error e
  | (Except.ok _, output) =>
      match utf8Decode output with
      | some s => Except.ok s
      | none =>
          Except.error { kind := RenderErrorKind.Utf8Error output, location := none }

/-! ## Helper lemmas -/

lemma minTierIndex_eq_zero_of_same_tier (p : BinaryOperator × Expression)
    (rest : List (BinaryOperator × Expression)) (t : Nat)
    (h : ∀ q ∈ p :: rest, opTier q.1 = t) : minTierIndex (p :: rest) = 0 := by
  have hall : ((p :: rest).map (fun q => opTier q.1)).all
      (fun x => opTier p.1 ≤ x) = true := by
    rw [List.all_eq_true]
    intro x hx
    rcases List.mem_map.mp hx with ⟨q, hq, rfl⟩
    rw [h q hq, h p (List.mem_cons_self _ _)]
    simp
  simp only [minTierIndex, firstMinIdx, List.map_cons] at *
  rw [List.all_cons] at hall
  simp only [Bool.and_eq_true] at hall
  rw [if_pos hall.2]

lemma buildBinOpLoop_same_tier (t : Nat) :
    ∀ (ops : List (BinaryOperator × Expression)) (lhs : Expression),
      (∀ q ∈ ops, opTier q.1 = t) →
      buildBinOpLoop ops.length lhs ops =
        ops.foldl (fun acc pr => Expression.BinaryOperation acc pr.1 pr.2) lhs := by
  intro ops
  induction ops with
  | nil => intro lhs _; rfl
  | cons p rest ih =>
    intro lhs h
    have h0 : minTierIndex (p :: rest) = 0 :=
      minTierIndex_eq_zero_of_same_tier p rest t h
    show buildBinOpLoop (rest.length + 1) lhs (p :: rest) = _
    simp only [buildBinOpLoop, h0, List.getElem?_cons_zero, List.eraseIdx_cons_zero,
      if_pos rfl, List.foldl_cons]
    exact ih (Expression.BinaryOperation lhs p.1 p.2)
      (fun q hq => h q (List.mem_cons_of_mem _ hq))

/-! ## Claims -/

/-- C1: the tier table of `build_binary_operation` is exactly the claimed
one (`* / %` = 0, `+ -` = 1, `< > <= >=` = 2, `== !=` = 3, `&&` = 4,
`||` = 5, `?:` = 6); building the flat sequences the grammar produces for
`5 * (4 - 3 / 1) * 2` yields exactly the tree `((5 * (4 - (3 / 1))) * 2)`;
and any chain whose operators share one tier is left-associated. -/
theorem build_binary_operation_correct :
    (opTier BinaryOperator.Times = 0 ∧ opTier BinaryOperator.Divide = 0 ∧
     opTier BinaryOperator.Modulo = 0 ∧ opTier BinaryOperator.Plus = 1 ∧
     opTier BinaryOperator.Minus = 1 ∧ opTier BinaryOperator.Less = 2 ∧
     opTier BinaryOperator.Greater = 2 ∧ opTier BinaryOperator.LessEquals = 2 ∧
     opTier BinaryOperator.GreaterEquals = 2 ∧ opTier BinaryOperator.Equals = 3 ∧
     opTier BinaryOperator.NotEquals = 3 ∧ opTier BinaryOperator.And = 4 ∧
     opTier BinaryOperator.Or = 5 ∧ opTier BinaryOperator.Elvis = 6) ∧
    build_binary_operation (Expression.Integer 5)
      [(BinaryOperator.Times,
        build_binary_operation (Expression.Integer 4)
          [(BinaryOperator.Minus, Expression.Integer 3),
           (BinaryOperator.Divide, Expression.Integer 1)]),
       (BinaryOperator.Times, Expression.Integer 2)] =
      Expression.BinaryOperation
        (Expression.BinaryOperation (Expression.Integer 5) BinaryOperator.Times
          (Expression.BinaryOperation (Expression.Integer 4) BinaryOperator.Minus
            (Expression.BinaryOperation (Expression.Integer 3) BinaryOperator.Divide
              (Expression.Integer 1))))
        BinaryOperator.Times (Expression.Integer 2) ∧
    ∀ (lhs : Expression) (ops : List (BinaryOperator × Expression)) (t : Nat),
      (∀ q ∈ ops, opTier q.1 = t) →
      build_binary_operation lhs ops =
        ops.foldl (fun acc pr => Expression.BinaryOperation acc pr.1 pr.2) lhs := by
  refine ⟨by decide, rfl, ?_⟩
  intro lhs ops t h
  exact buildBinOpLoop_same_tier t ops lhs h

/-- Witness for C1: the same-tier clause applied to the concrete chain
`1 + 2 - 3`, which left-associates to `((1 + 2) - 3)`. -/
theorem build_binary_operation_correct_witness :
    build_binary_operation (Expression.Integer 1)
      [(BinaryOperator.Plus, Expression.Integer 2),
       (BinaryOperator.Minus, Expression.Integer 3)] =
      Expression.BinaryOperation
        (Expression.BinaryOperation (Expression.Integer 1) BinaryOperator.Plus
          (Expression.Integer 2))
        BinaryOperator.Minus (Expression.Integer 3) :=
  build_binary_operation_correct.2.2 (Expression.Integer 1)
    [(BinaryOperator.Plus, Expression.Integer 2),
     (BinaryOperator.Minus, Expression.Integer 3)] 1 (by decide)

lemma parseReferenceStep_of_step (st : Option Referent × List Reference)
    (c : RefChild) (r : Reference) (h : stepOfChild c = some r) :
    parseReferenceStep st c = (st.1, st.2 ++ [r]) := by
  cases c with
  | «variable» name => simp [stepOfChild] at h
  | injectedData name => simp [stepOfChild] at h
  | bracketedReference e => simp [stepOfChild] at h; simp [parseReferenceStep, ← h]
  | dottedReference key => simp [stepOfChild] at h; simp [parseReferenceStep, ← h]
  | questionBracketedReference e =>
      simp [stepOfChild] at h; simp [parseReferenceStep, ← h]
  | questionDottedReference key =>
      simp [stepOfChild] at h; simp [parseReferenceStep, ← h]

lemma parse_reference_foldl :
    ∀ (steps : List RefChild) (r : Referent) (acc refs : List Reference),
      stepsOfChildren steps = some refs →
      steps.foldl parseReferenceStep (some r, acc) = (some r, acc ++ refs) := by
  intro steps
  induction steps with
  | nil =>
    intro r acc refs h
    simp [stepsOfChildren] at h
    simp [← h]
  | cons c cs ih =>
    intro r acc refs h
    simp only [stepsOfChildren] at h
    rcases h1 : stepOfChild c with _ | r0
    · rw [h1] at h; exact absurd h (by simp)
    · rw [h1] at h
      rcases h2 : stepsOfChildren cs with _ | rs
      · rw [h2] at h; exact absurd h (by simp)
      · rw [h2] at h
        simp only [Option.some.injEq] at h
        rw [List.foldl_cons, parseReferenceStep_of_step _ c r0 h1]
        rw [ih r (acc ++ [r0]) rs h2, ← h]
        simp

/-- C9: `parse_reference` yields exactly one referent (`Variable` for
`$name`, `Injected` for `$ij.name`) followed by the chain of `Reference`
steps in source order, each step's kind preserved exactly; in particular the
child sequence the grammar produces for `$ij.foo[3 * $baz]?.bar` parses to
`Injected("foo")` with chain `[Bracketed(3 * $baz), QuestionDotted("bar")]`
(the bracketed sub-expression being the builder's tree for `3 * $baz`). -/
theorem parse_reference_chain :
    (∀ (c : RefChild) (r : Referent) (steps : List RefChild) (refs : List Reference),
      referentOfChild c = some r → stepsOfChildren steps = some refs →
      parse_reference (c :: steps) = some (Expression.DataReference r refs)) ∧
    parse_reference
      [RefChild.injectedData "foo",
       RefChild.bracketedReference (build_binary_operation (Expression.Integer 3)
         [(BinaryOperator.Times, Expression.DataReference (Referent.Variable "baz") [])]),
       RefChild.questionDottedReference (ReferenceKey.Name "bar")] =
      some (Expression.DataReference (Referent.Injected "foo")
        [Reference.Bracketed (Expression.BinaryOperation (Expression.Integer 3)
           BinaryOperator.Times (Expression.DataReference (Referent.Variable "baz") [])),
         Reference.QuestionDotted (ReferenceKey.Name "bar")]) := by
  constructor
  · intro c r steps refs hc hs
    have h1 : parseReferenceStep (none, []) c = (some r, []) := by
      cases c with
      | «variable» name => simp [referentOfChild] at hc; simp [parseReferenceStep, ← hc]
      | injectedData name => simp [referentOfChild] at hc; simp [parseReferenceStep, ← hc]
      | bracketedReference e => simp [referentOfChild] at hc
      | dottedReference key => simp [referentOfChild] at hc
      | questionBracketedReference e => simp [referentOfChild] at hc
      | questionDottedReference key => simp [referentOfChild] at hc
    show ((c :: steps).foldl parseReferenceStep (none, [])).1.map _ = _
    rw [List.foldl_cons, h1, parse_reference_foldl steps r [] refs hs]
    simp
  · rfl

/-- Witness for C9: the general clause applied to the children of
`$x.y`. -/
theorem parse_reference_chain_witness :
    parse_reference [RefChild.«variable» "x", RefChild.dottedReference (ReferenceKey.Name "y")] =
      some (Expression.DataReference (Referent.Variable "x")
        [Reference.Dotted (ReferenceKey.Name "y")]) :=
  parse_reference_chain.1 (RefChild.«variable» "x") (Referent.Variable "x")
    [RefChild.dottedReference (ReferenceKey.Name "y")]
    [Reference.Dotted (ReferenceKey.Name "y")] rfl rfl

/-- C2: for every `RawText` node the renderer writes one space byte (0x20)
before the node's text exactly when the pending-space flag is true, then the
text, and leaves the flag equal to the node's newline flag; the flag starts
false and a flag still set at the end of a block produces no output, so a
body that is a single raw-text span renders as exactly that span (for either
value of its newline flag). -/
theorem render_raw_text_pending_space :
    (∀ (out : List UInt8) (flag : Bool) (value : String) (newline : Bool),
      renderStep (out, flag) (TemplateNode.RawText value newline) =
        (out ++ (if flag then [32] else []) ++ strBytes value, newline)) ∧
    ∀ (name : String) (params : List SoydocParam) (value : String) (newline : Bool),
      render_template (Template.mk name params [TemplateNode.RawText value newline]) =
        strBytes value := by
  constructor
  · intro out flag value newline
    cases flag <;> simp [renderStep]
  · intro name params value newline
    simp [render_template, renderStep]

/-- The failing input for C3: a statement whose newline flag is `true`,
followed by raw text.  Spec §4.4 demands the pending-space flag be set to
the statement's newline flag (so a join space before `Y`); the code sets it
to `false` unconditionally (src/tofu.rs:78, under the
`// todo: handle space joining` comment at src/tofu.rs:61). -/
def c3Template : Template :=
  { name := "t", soydoc_params := [],
    body := [TemplateNode.Statement (Command.Literal "X") true,
             TemplateNode.RawText "Y" false] }

/-- C3 (code bug): after rendering any `Statement` node the pending-space
flag is `false` regardless of the node's newline flag, so `c3Template`
renders as `"XY"` and not as the spec-mandated `"X Y"`. -/
theorem render_statement_pending_space_bug :
    (∀ (out : List UInt8) (flag : Bool) (c : Command) (newline : Bool),
      (renderStep (out, flag) (TemplateNode.Statement c newline)).2 = false) ∧
    render_template c3Template = strBytes "XY" ∧
    (strBytes "XY" == strBytes "X Y") = false := by
  refine ⟨?_, by decide, by decide⟩
  intro out flag c newline
  rfl

/-- The failing input for C4: a template printing the string literal
`'hi'`. -/
def c4Template : Template :=
  { name := "t", soydoc_params := [],
    body := [TemplateNode.Statement
      (Command.Print (Expression.String "hi") []) false] }

/-- C4 (code bug): the `Command::Print` arm of `render_template` is an
unimplemented stub (`// TODO: implement`, src/tofu.rs:76) that writes
nothing, so printing `'hi'` emits no bytes instead of the text `hi` (and
`RenderErrorKind` has no `UnknownDirective` variant at all). -/
theorem render_print_unimplemented :
    render_template c4Template = [] ∧ (strBytes "hi" == []) = false := by
  exact ⟨rfl, by decide⟩

/-- The failing input for C5: the body
`{msg}{plural $n}{case 1}one{default}many{/plural}{/msg}` (to be rendered
with `n = 5`). -/
def c5Template : Template :=
  { name := "t", soydoc_params := [SoydocParam.mk "n" true],
    body := [TemplateNode.Statement
      (Command.Msg (MsgBody.Plural
        (Expression.DataReference (Referent.Variable "n") [])
        [PluralCase.mk (Expression.Integer 1) [TemplateNode.RawText "one" false]]
        [TemplateNode.RawText "many" false])) false] }

/-- C5 (code bug): the `Command::Msg` arm of `render_template` is an
unimplemented stub (`// TODO: implement`, src/tofu.rs:75) that writes
nothing, so the plural message renders as no bytes at all instead of the
default-case text `many`. -/
theorem render_msg_plural_unimplemented :
    render_template c5Template = [] ∧ (strBytes "many" == []) = false := by
  exact ⟨rfl, by decide⟩

/-- The last element of a list satisfying a predicate (the binding that
survives a left-to-right sequence of map insertions, where later insertions
replace earlier ones). -/
def lastMatch {α : Type} (p : α → Bool) : List α → Option α
  | [] => none
  | a :: l => (lastMatch p l).or (if p a then some a else none)

lemma add_file_foldl_lookup (ns : String) :
    ∀ (ts : List Template) (m : String → Option Template) (key : String),
      (ts.foldl (fun m t => fun k => if k = fqName ns t then some t else m k) m) key =
        (lastMatch (fun t => key == fqName ns t) ts).or (m key) := by
  intro ts
  induction ts with
  | nil => intro m key; simp [lastMatch]
  | cons t rest ih =>
    intro m key
    rw [List.foldl_cons, ih]
    show _ = (lastMatch _ (t :: rest)).or _
    rw [lastMatch]
    cases h : lastMatch (fun t' => key == fqName ns t') rest with
    | some x => simp [h, Option.or]
    | none =>
      by_cases hk : key = fqName ns t
      · simp [h, hk, Option.or]
      · simp [h, hk, Option.or]

/-- The colliding pair for C6: one source unit with namespace `ns` holding
two templates both named `t` (fully-qualified name `ns.t` twice), with
observably different bodies. -/
def collisionT1 : Template :=
  { name := "t", soydoc_params := [],
    body := [TemplateNode.RawText "first" false] }

/-- Second template of the colliding pair for C6. -/
def collisionT2 : Template :=
  { name := "t", soydoc_params := [],
    body := [TemplateNode.RawText "second" false] }

/-- The source unit holding the colliding pair for C6. -/
def collisionFile : SoyFile :=
  { delpackage := none, «namespace» := { name := "ns", attributes := [] },
    aliases := [], templates := [collisionT1, collisionT2] }

/-- Counterexample to C6: registering two templates with the same
fully-qualified name `ns.t` is not a compile error — the build succeeds and
the registry resolves `ns.t` to the later template, whose rendering differs
from the earlier one's. -/
theorem add_file_collision_counterexample :
    with_string_template collisionFile = Except.ok (add_file emptyTofu collisionFile) ∧
    (add_file emptyTofu collisionFile).templates "ns.t" = some collisionT2 ∧
    (render_template collisionT2 == render_template collisionT1) = false := by
  refine ⟨rfl, rfl, by decide⟩

/-- C6 amended: building the registry from a source unit never fails on a
fully-qualified name collision; `HashMap::extend` silently replaces, so the
registry resolves every key to the *last* template of the unit carrying that
fully-qualified name (and to nothing if none does). -/
theorem add_file_last_wins :
    ∀ (file : SoyFile) (key : String),
      with_string_template file = Except.ok (add_file emptyTofu file) ∧
      (add_file emptyTofu file).templates key =
        lastMatch (fun t => key == fqName file.«namespace».name t) file.templates := by
  intro file key
  refine ⟨rfl, ?_⟩
  show (file.templates.foldl _ emptyTofu.templates) key = _
  rw [add_file_foldl_lookup]
  cases lastMatch (fun t => key == fqName file.«namespace».name t) file.templates with
  | some x => rfl
  | none => rfl

/-- The failing input for C7: a source unit whose single template's body
prints the variable reference `$x` while its soydoc parameter list is
empty (`x` undeclared). -/
def undeclaredParamFile : SoyFile :=
  { delpackage := none, «namespace» := { name := "ns", attributes := [] },
    aliases := [],
    templates := [Template.mk "t" []
      [TemplateNode.Statement
        (Command.Print (Expression.DataReference (Referent.Variable "x") []) [])
        false]] }

/-- C7 (code bug): registry construction performs no undeclared-parameter
validation at all — after a successful parse, `with_string_template` only
calls `add_file` and returns `Ok`, so a file whose template body references
the undeclared `$x` builds successfully; `CompileErrorKind::
UndeclaredParameter` is declared in src/error.rs (and has a `Display` arm)
but no code path constructs it. -/
theorem undeclared_parameter_not_checked :
    with_string_template undeclaredParamFile =
      Except.ok (add_file emptyTofu undeclaredParamFile) ∧
    (undeclaredParamFile.templates.map (fun t => t.soydoc_params)) = [[]] := by
  exact ⟨rfl, rfl⟩

/-- C8: a render request for a name absent from the registry fails with a
`TemplateNotFound` error carrying exactly the requested name, and nothing is
written to the output sink (the sink contents are returned unchanged); the
lookup and the failed render leave the registry value untouched (both are
pure functions of the same `tofu` value). -/
theorem template_not_found_exact :
    ∀ (tofu : Tofu) (name : String) (w : List UInt8),
      tofu.templates name = none →
      template tofu name =
        Except.error { kind := RenderErrorKind.TemplateNotFound name, location := none } ∧
      render tofu w name =
        (Except.error { kind := RenderErrorKind.TemplateNotFound name, location := none }, w) := by
  intro tofu name w h
  have ht : template tofu name =
      Except.error { kind := RenderErrorKind.TemplateNotFound name, location := none } := by
    simp [template, h]
  exact ⟨ht, by simp [render, ht]⟩

/-- Witness for C8: the empty registry and the request `"ns.missing"`. -/
theorem template_not_found_exact_witness :
    render emptyTofu [] "ns.missing" =
      (Except.error (RenderError.mk (RenderErrorKind.TemplateNotFound "ns.missing")
        none), []) :=
  (template_not_found_exact emptyTofu "ns.missing" [] rfl).2

/-- C10: `render_to_string` agrees with the sink-based `render`: an error of
the underlying render is propagated unchanged; on a successful render the
written bytes are decoded, yielding `Ok(s)` exactly when they are valid
UTF-8 decoding to `s` and a `Utf8Error` render error otherwise. -/
theorem render_to_string_agrees :
    ∀ (tofu : Tofu) (name : String),
      (∀ (e : RenderError) (w' : List UInt8),
        render tofu [] name = (Except.error e, w') →
        render_to_string tofu name = Except.error e) ∧
      (∀ output : List UInt8,
        render tofu [] name = (Except.ok (), output) →
        render_to_string tofu name =
          (match utf8Decode output with
           | some s => Except.ok s
           | none => Except.error (RenderError.mk (RenderErrorKind.Utf8Error output)
               none))) ∧
      (∀ s : String,
        render_to_string tofu name = Except.ok s ↔
          ∃ output : List UInt8,
            render tofu [] name = (Except.ok (), output) ∧
            utf8Decode output = some s) := by
  intro tofu name
  refine ⟨?_, ?_, ?_⟩
  · intro e w' h
    simp only [render_to_string, h]
  · intro output h
    simp only [render_to_string, h]
  · intro s
    constructor
    · intro h
      rcases hr : render tofu [] name with ⟨res, out⟩
      cases res with
      | error e => rw [render_to_string, hr] at h; exact absurd h (by simp)
      | ok u =>
        cases u
        simp only [render_to_string, hr] at h
        cases hd : utf8Decode out with
        | some s0 =>
          simp only [hd, Except.ok.injEq] at h
          exact ⟨out, rfl, by rw [hd, h]⟩
        | none => simp only [hd] at h; exact absurd h (by simp)
    · rintro ⟨output, h1, h2⟩
      simp only [render_to_string, h1, h2]

/-- The source unit whose only template body is the raw text
`Hello world!`, for the C10 witness. -/
def helloFile : SoyFile :=
  { delpackage := none, «namespace» := { name := "ns", attributes := [] },
    aliases := [],
    templates := [Template.mk "t" [] [TemplateNode.RawText "Hello world!" false]] }

/-- Witness for C10: on the registry holding `helloFile`, the success clause
applied to the concrete render of `ns.t` yields `Ok("Hello world!")`. -/
theorem render_to_string_agrees_witness :
    render_to_string (add_file emptyTofu helloFile) "ns.t" = Except.ok "Hello world!" := by
  have h := (render_to_string_agrees (add_file emptyTofu helloFile) "ns.t").2.1
    (strBytes "Hello world!") rfl
  rw [h]
  rfl
